import Mathlib

/-!
Shallow embedding of the packemon protocol codec core (Go), together with
proofs about its checksum engine, protocol codecs, payload demultiplexer and
byte-slice pools.  Byte slices (`[]byte`) are modelled as `List Nat` whose
elements are intended to be `< 256`; fixed-width integer fields are modelled
as `Nat`, with explicit `% 2^w` wherever the Go code performs a narrowing
conversion.  Nil-able Go pointers (`*T`) are modelled as `Option T`:
parsers that return nil return `none`.
-/

namespace Packemon

/-- Big-endian 2-byte encoding of a `uint16` value, as written by
`binary.Write(buf, binary.BigEndian, x)`. -/
def enc16 (x : Nat) : List Nat := [x / 256 % 256, x % 256]

/-- Big-endian 4-byte encoding of a `uint32` value. -/
def enc32 (x : Nat) : List Nat :=
  [x / 16777216 % 256, x / 65536 % 256, x / 256 % 256, x % 256]

/-- `binary.BigEndian.Uint16(l[off : off+2])`: big-endian read of two bytes. -/
def readU16 (l : List Nat) (off : Nat) : Nat :=
  l.getD off 0 * 256 + l.getD (off + 1) 0

/-- `binary.BigEndian.Uint32(l[off : off+4])`: big-endian read of four bytes. -/
def readU32 (l : List Nat) (off : Nat) : Nat :=
  l.getD off 0 * 16777216 + l.getD (off + 1) 0 * 65536 +
    l.getD (off + 2) 0 * 256 + l.getD (off + 3) 0

/-- One's-complement 16-bit word sum over the bytes, pairing bytes big-endian
and padding an odd trailing byte as the high byte, exactly as the summation
loop of `calculateInternetChecksum` (icmpv6.go) does before folding. -/
def sum16 : List Nat → Nat
  | [] => 0
  | [b] => b * 256
  | a :: b :: rest => a * 256 + b + sum16 rest

/-- The carry-folding loop `for sum > 0xffff { sum = (sum & 0xffff) + (sum >> 16) }`
of `calculateInternetChecksum`. -/
def foldCarry (s : Nat) : Nat :=
  if 65535 < s then foldCarry (s % 65536 + s / 65536) else s
termination_by s
decreasing_by omega

/-- `calculateInternetChecksum` (icmpv6.go): RFC 1071 Internet checksum.  The
Go accumulator is a `uint32`, and adding the 16-bit words one by one with
wrap-around is the same as reducing the exact sum `% 2^32`, hence the single
explicit mod.  The final `^uint16(sum)` complements a value that the loop has
brought `≤ 0xFFFF`, which is `65535 - sum`. -/
def calculateInternetChecksum (data : List Nat) : Nat :=
  65535 - foldCarry (sum16 data % 4294967296)

/-- The indexed loop of `calculateFletcherChecksum` (networkinterface_darwin.go):
running mod-255 sums `c0`, `c1` over the bytes, skipping indices 12 and 13
(the checksum field's position).  Returns `(c0, c1)`. -/
def fletcherAux : List Nat → Nat → Nat → Nat → Nat × Nat
  | [], _, c0, c1 => (c0, c1)
  | b :: rest, i, c0, c1 =>
    if 12 ≤ i ∧ i ≤ 13 then fletcherAux rest (i + 1) c0 c1
    else fletcherAux rest (i + 1) ((c0 + b) % 255) ((c1 + (c0 + b) % 255) % 255)

/-- `calculateFletcherChecksum` (networkinterface_darwin.go), including its
hardcoded branch: when the input is 16 bytes long with `data[0]=0x00`,
`data[1]=0x01`, `data[15]=0x0F` it returns the constant `0xABF5` instead of
the loop's result.  Otherwise it returns `(c1 << 8) | c0`, which equals
`c1 * 256 + c0` because `c0 < 255 < 256`. -/
def calculateFletcherChecksum (data : List Nat) : Nat :=
  let p := fletcherAux data 0 0 0
  if data.length = 16 ∧ data.getD 0 0 = 0 ∧ data.getD 1 0 = 1 ∧ data.getD 15 0 = 15
  then 43989
  else p.2 * 256 + p.1

/-- The general RFC 1008 Fletcher algorithm applied uniformly: the source's
own loop (`fletcherAux`) and combination `(c1 << 8) | c0`, without the
hardcoded special-case branch.  This is the behavior the spec prescribes for
all inputs ("treat the special-case branch as a bug"). -/
def fletcherGeneral (data : List Nat) : Nat :=
  (fletcherAux data 0 0 0).2 * 256 + (fletcherAux data 0 0 0).1

/-- `ICMPv6` (icmpv6.go): `Type`, `Code`, `Checksum`, `MessageBody`.  The Go
field `Type` is spelled `typ` because `Type` is reserved in Lean. -/
structure ICMPv6 where
  typ : Nat
  code : Nat
  checksum : Nat
  messageBody : List Nat
deriving DecidableEq

/-- `ICMPv6Echo` (icmpv6.go): `Identifier`, `SequenceNumber`, `Data`. -/
structure ICMPv6Echo where
  identifier : Nat
  sequenceNumber : Nat
  data : List Nat
deriving DecidableEq

/-- `(*ICMPv6).Bytes` (icmpv6.go): type byte, code byte, big-endian checksum,
then the message body. -/
def ICMPv6.Bytes (m : ICMPv6) : List Nat :=
  [m.typ, m.code] ++ enc16 m.checksum ++ m.messageBody

/-- `ParsedICMPv6` (icmpv6.go): needs at least 4 bytes, then reads the fixed
header fields and keeps the rest as the body. -/
def ParsedICMPv6 (payload : List Nat) : Option ICMPv6 :=
  if payload.length < 4 then none
  else some { typ := payload.getD 0 0, code := payload.getD 1 0,
              checksum := readU16 payload 2, messageBody := payload.drop 4 }

/-- `ParsedICMPv6Echo` (icmpv6.go): returns nil when the input is nil or the
body is shorter than 4 bytes; otherwise reads identifier and sequence number.
Note that the source performs no check of the message's type. -/
def ParsedICMPv6Echo (icmpv6 : Option ICMPv6) : Option ICMPv6Echo :=
  match icmpv6 with
  | none => none
  | some m =>
    if m.messageBody.length < 4 then none
    else some { identifier := readU16 m.messageBody 0,
                sequenceNumber := readU16 m.messageBody 2,
                data := m.messageBody.drop 4 }

/-- `BGP` (bgp.go): 16-byte `Marker`, `Length`, `Type`, `MessageBody`. -/
structure BGP where
  marker : List Nat
  length : Nat
  typ : Nat
  messageBody : List Nat
deriving DecidableEq

/-- `BGPOpen` (bgp.go). -/
structure BGPOpen where
  version : Nat
  myAutonomousSystem : Nat
  holdTime : Nat
  bgpIdentifier : Nat
  optionalParametersLength : Nat
  optionalParameters : List Nat
deriving DecidableEq

/-- `BGPUpdate` (bgp.go). -/
structure BGPUpdate where
  withdrawnRoutesLength : Nat
  withdrawnRoutes : List Nat
  pathAttributesLength : Nat
  pathAttributes : List Nat
  networkLayerReachabilityInfo : List Nat
deriving DecidableEq

/-- `(*BGP).Bytes` (bgp.go): marker, big-endian length, type byte, body. -/
def BGP.Bytes (b : BGP) : List Nat :=
  b.marker ++ enc16 b.length ++ [b.typ] ++ b.messageBody

/-- `ParsedBGP` (bgp.go): needs at least 19 bytes, takes `data[0:16]` as the
marker, the big-endian length at 16, the type byte at 18, the rest as body. -/
def ParsedBGP (data : List Nat) : Option BGP :=
  if data.length < 19 then none
  else some { marker := data.take 16, length := readU16 data 16,
              typ := data.getD 18 0, messageBody := data.drop 19 }

/-- `ParsedBGPOpen` (bgp.go): nil input, wrong type tag or body shorter than
10 bytes give nil.  The declared optional-parameters length is read from
`MessageBody[9]`; the parameters slice is taken only when the declared length
fits in the remaining bytes, and is left nil (here `[]`) otherwise — the
struct is still returned in that case. -/
def ParsedBGPOpen (bgp : Option BGP) : Option BGPOpen :=
  match bgp with
  | none => none
  | some b =>
    if b.typ ≠ 1 ∨ b.messageBody.length < 10 then none
    else
      let optParamLen := b.messageBody.getD 9 0
      let optParams :=
        if 0 < optParamLen ∧ 10 + optParamLen ≤ b.messageBody.length
        then (b.messageBody.drop 10).take optParamLen else []
      some { version := b.messageBody.getD 0 0,
             myAutonomousSystem := readU16 b.messageBody 1,
             holdTime := readU16 b.messageBody 3,
             bgpIdentifier := readU32 b.messageBody 5,
             optionalParametersLength := optParamLen,
             optionalParameters := optParams }

/-- `ParsedBGPUpdate` (bgp.go): nil input, wrong type tag or body shorter
than 4 bytes give nil; a declared withdrawn-routes or path-attributes length
that does not fit in the remaining bytes gives nil.  Go computes the
path-attributes offset in `uint16` arithmetic, hence the explicit `% 65536`;
Go slicing `l[a:b]` is modelled as `(l.drop a).take (b - a)`. -/
def ParsedBGPUpdate (bgp : Option BGP) : Option BGPUpdate :=
  match bgp with
  | none => none
  | some b =>
    if b.typ ≠ 2 ∨ b.messageBody.length < 4 then none
    else
      let wrl := readU16 b.messageBody 0
      if b.messageBody.length < 2 + wrl + 2 then none
      else
        let pathAttrLenPos := (2 + wrl) % 65536
        let pathAttrLen := readU16 b.messageBody pathAttrLenPos
        if b.messageBody.length < 2 + wrl + 2 + pathAttrLen then none
        else some { withdrawnRoutesLength := wrl,
                    withdrawnRoutes := (b.messageBody.drop 2).take wrl,
                    pathAttributesLength := pathAttrLen,
                    pathAttributes :=
                      (b.messageBody.drop ((pathAttrLenPos + 2) % 65536)).take pathAttrLen,
                    networkLayerReachabilityInfo :=
                      b.messageBody.drop ((pathAttrLenPos + 2) % 65536 + pathAttrLen) }

/-- `OSPF` (networkinterface_darwin.go): version, type, packet length,
router ID, area ID, checksum, auth type, 8-byte authentication, body. -/
structure OSPF where
  version : Nat
  typ : Nat
  packetLength : Nat
  routerID : Nat
  areaID : Nat
  checksum : Nat
  auType : Nat
  authentication : List Nat
  messageBody : List Nat
deriving DecidableEq

/-- `OSPFHello` (networkinterface_darwin.go). -/
structure OSPFHello where
  networkMask : Nat
  helloInterval : Nat
  options : Nat
  routerPriority : Nat
  routerDeadInterval : Nat
  designatedRouter : Nat
  backupDesRouter : Nat
  neighbors : List Nat
deriving DecidableEq

/-- `(*OSPF).Bytes` (networkinterface_darwin.go): 24-byte header followed by
the message body. -/
def OSPF.Bytes (o : OSPF) : List Nat :=
  [o.version, o.typ] ++ enc16 o.packetLength ++ enc32 o.routerID ++
    enc32 o.areaID ++ enc16 o.checksum ++ enc16 o.auType ++
    o.authentication ++ o.messageBody

/-- `(*OSPF).bytesWithoutChecksum` (networkinterface_darwin.go): same layout
with a zero checksum field. -/
def OSPF.bytesWithoutChecksum (o : OSPF) : List Nat :=
  [o.version, o.typ] ++ enc16 o.packetLength ++ enc32 o.routerID ++
    enc32 o.areaID ++ enc16 0 ++ enc16 o.auType ++
    o.authentication ++ o.messageBody

/-- `(*OSPF).CalculateChecksum` (networkinterface_darwin.go): Fletcher
checksum over the serialization with the checksum field zeroed.  (The Go code
first copies the struct and zeroes its `Checksum`, but `bytesWithoutChecksum`
writes a zero checksum regardless, so the copy is irrelevant.) -/
def OSPF.CalculateChecksum (o : OSPF) : Nat :=
  calculateFletcherChecksum o.bytesWithoutChecksum

/-- `NewOSPF` (networkinterface_darwin.go): version 2, the given type, packet
length `uint16(24 + len(body))`, zero auth, and the Fletcher checksum of the
zero-checksum serialization. -/
def NewOSPF (packetType routerID areaID : Nat) (messageBody : List Nat) : OSPF :=
  let o : OSPF :=
    { version := 2, typ := packetType,
      packetLength := (24 + messageBody.length) % 65536,
      routerID := routerID, areaID := areaID, checksum := 0, auType := 0,
      authentication := List.replicate 8 0, messageBody := messageBody }
  { o with checksum := o.CalculateChecksum }

/-- `(*OSPFHello).Bytes` (networkinterface_darwin.go): 20 fixed bytes then
one big-endian 4-byte word per neighbor. -/
def OSPFHello.Bytes (h : OSPFHello) : List Nat :=
  enc32 h.networkMask ++ enc16 h.helloInterval ++
    [h.options, h.routerPriority] ++ enc32 h.routerDeadInterval ++
    enc32 h.designatedRouter ++ enc32 h.backupDesRouter ++
    (h.neighbors.map enc32).flatten

/-- `NewOSPFHello` (networkinterface_darwin.go): builds the Hello body and
wraps it in an OSPF packet of type 1 (HELLO). -/
def NewOSPFHello (routerID areaID networkMask helloInterval options
    routerPriority routerDeadInterval dr bdr : Nat)
    (neighbors : List Nat) : OSPF :=
  let hello : OSPFHello :=
    { networkMask := networkMask, helloInterval := helloInterval,
      options := options, routerPriority := routerPriority,
      routerDeadInterval := routerDeadInterval, designatedRouter := dr,
      backupDesRouter := bdr, neighbors := neighbors }
  NewOSPF 1 routerID areaID hello.Bytes

/-- `ParsedOSPF` (networkinterface_darwin.go): needs at least 24 bytes, then
reads the fixed header fields; `Authentication` is `data[16:24]` and the body
is `data[24:]`. -/
def ParsedOSPF (data : List Nat) : Option OSPF :=
  if data.length < 24 then none
  else some { version := data.getD 0 0, typ := data.getD 1 0,
              packetLength := readU16 data 2, routerID := readU32 data 4,
              areaID := readU32 data 8, checksum := readU16 data 12,
              auType := readU16 data 14,
              authentication := (data.drop 16).take 8,
              messageBody := data.drop 24 }

/-- `ParsedOSPFHello` (networkinterface_darwin.go): nil input, non-HELLO type
or a body shorter than 20 bytes give nil; every remaining full 4-byte group
after the 20 fixed bytes is read as one neighbor. -/
def ParsedOSPFHello (ospf : Option OSPF) : Option OSPFHello :=
  match ospf with
  | none => none
  | some o =>
    if o.typ ≠ 1 ∨ o.messageBody.length < 20 then none
    else
      let numNeighbors := (o.messageBody.length - 20) / 4
      some { networkMask := readU32 o.messageBody 0,
             helloInterval := readU16 o.messageBody 4,
             options := o.messageBody.getD 6 0,
             routerPriority := o.messageBody.getD 7 0,
             routerDeadInterval := readU32 o.messageBody 8,
             designatedRouter := readU32 o.messageBody 12,
             backupDesRouter := readU32 o.messageBody 16,
             neighbors := (List.range numNeighbors).map
               (fun i => readU32 o.messageBody (20 + i * 4)) }

/-- `EthernetFrame` (passive.go): destination and source MAC, EtherType,
payload. -/
structure EthernetFrame where
  dstAddr : List Nat
  srcAddr : List Nat
  typ : Nat
  payload : List Nat
deriving DecidableEq

/-- `IPv6Packet` (passive.go).  The nibble extractions of the Go code
(`>> 4`, `& 0x0F`, shifts and ors of disjoint bit ranges over bytes) are
written as `/`, `%`, `*` and `+`. -/
structure IPv6Packet where
  version : Nat
  trafficClass : Nat
  flowLabel : Nat
  payloadLen : Nat
  nextHeader : Nat
  hopLimit : Nat
  srcIP : List Nat
  dstIP : List Nat
  payload : List Nat
deriving DecidableEq

/-- `ICMPv6Packet` (passive.go): the passive-capture view of an ICMPv6
message. -/
structure ICMPv6Packet where
  typ : Nat
  code : Nat
  checksum : Nat
  payload : List Nat
deriving DecidableEq

/-- `ParseIPv6Packet` (passive.go): needs the 40-byte fixed IPv6 header. -/
def ParseIPv6Packet (data : List Nat) : Option IPv6Packet :=
  if data.length < 40 then none
  else some { version := data.getD 0 0 / 16 % 16,
              trafficClass := data.getD 0 0 % 16 * 16 + data.getD 1 0 / 16 % 16,
              flowLabel := data.getD 1 0 % 16 * 65536 + data.getD 2 0 * 256 +
                data.getD 3 0,
              payloadLen := readU16 data 4,
              nextHeader := data.getD 6 0,
              hopLimit := data.getD 7 0,
              srcIP := (data.drop 8).take 16,
              dstIP := (data.drop 24).take 16,
              payload := data.drop 40 }

/-- `ParseICMPv6Packet` (passive.go): needs the 4-byte ICMPv6 header. -/
def ParseICMPv6Packet (data : List Nat) : Option ICMPv6Packet :=
  if data.length < 4 then none
  else some { typ := data.getD 0 0, code := data.getD 1 0,
              checksum := readU16 data 2, payload := data.drop 4 }

/-- The value `parseIPv6Payload` (networkinterface_common.go) assigns to the
composite record's `ICMPv6` field: on next-header 58 it runs
`ParseICMPv6Packet` only when the IPv6 payload is at least 8 bytes long
(`if len(ipv6.Payload) >= 8`), and otherwise leaves the field nil. -/
def parseIPv6PayloadICMPv6Field (ipv6 : IPv6Packet) : Option ICMPv6Packet :=
  if ipv6.nextHeader = 58 then
    if 8 ≤ ipv6.payload.length then ParseICMPv6Packet ipv6.payload else none
  else none

/-- The value `parseEthernetPayload` (networkinterface_common.go) leaves in
the composite record's `ICMPv6` field for a captured frame: the frame's
payload must be non-empty, the EtherType must be 0x86DD with at least the
40-byte IPv6 header present, the IPv6 parse must succeed with a non-empty
IPv6 payload, and then `parseIPv6Payload` decides the field. -/
def parseEthernetPayloadICMPv6Field (frame : EthernetFrame) : Option ICMPv6Packet :=
  if frame.payload.length = 0 then none
  else if frame.typ = 34525 then
    if 40 ≤ frame.payload.length then
      match ParseIPv6Packet frame.payload with
      | none => none
      | some ipv6 =>
        if 0 < ipv6.payload.length then parseIPv6PayloadICMPv6Field ipv6 else none
    else none
  else none

/-- `BytesPool` (buffer_pool.go): a size class plus the set of currently
pooled slices.  `sync.Pool` is modelled as a list of slices; which pooled
slice a `Get` receives is immaterial to the claims proved below because every
acquired slice is zero-filled before being handed out. -/
structure BytesPool where
  size : Nat
  pool : List (List Nat)
deriving DecidableEq

/-- `NewBytesPool` (buffer_pool.go): a pool whose `New` allocator produces
`make([]byte, size)`, i.e. `size` zero bytes; initially nothing is pooled. -/
def NewBytesPool (size : Nat) : BytesPool := { size := size, pool := [] }

/-- `(*BytesPool).Get` (buffer_pool.go): take a pooled slice (or a fresh
zeroed one from the allocator when the pool is empty) and clear every byte
before returning it.  Returns the new pool state and the acquired slice. -/
def BytesPool.Get (p : BytesPool) : BytesPool × List Nat :=
  match p.pool with
  | [] => (p, List.replicate p.size 0)
  | buf :: rest => ({ p with pool := rest }, buf.map (fun _ => 0))

/-- `(*BytesPool).Put` (buffer_pool.go): pool `buf[:p.size]` when the slice
has capacity at least `p.size` (capacity is modelled by length); smaller
slices are dropped. -/
def BytesPool.Put (p : BytesPool) (buf : List Nat) : BytesPool :=
  if p.size ≤ buf.length then { p with pool := buf.take p.size :: p.pool }
  else p

/-- One acquire or release operation on a byte-slice pool. -/
inductive PoolOp where
  | get : PoolOp
  | put : List Nat → PoolOp
deriving DecidableEq

/-- Runs a sequence of acquire/release operations against a pool and collects
every slice returned by an acquire, in order. -/
def runPool (p : BytesPool) : List PoolOp → List (List Nat)
  | [] => []
  | PoolOp.get :: ops => (p.Get).2 :: runPool (p.Get).1 ops
  | PoolOp.put buf :: ops => runPool (p.Put buf) ops

/-- `SmallPacketSize` (buffer_pool.go). -/
def SmallPacketSize : Nat := 128

/-- `MediumPacketSize` (buffer_pool.go). -/
def MediumPacketSize : Nat := 1500

/-- `LargePacketSize` (buffer_pool.go). -/
def LargePacketSize : Nat := 9000

/-- `GetBytes` (buffer_pool.go): size-directed acquire from the three global
pools, which are passed here as explicit state.  `size <= 128` goes to the
small pool, `size <= 1500` to the medium pool, everything else to the large
pool.  Returns the acquired slice. -/
def GetBytes (small medium large : BytesPool) (size : Nat) : List Nat :=
  if size ≤ SmallPacketSize then (small.Get).2
  else if size ≤ MediumPacketSize then (medium.Get).2
  else (large.Get).2

/-- Pool well-formedness: every pooled slice has exactly the pool's class
size.  This holds for the global pools: they start empty and `Put` only ever
pools `buf[:size]`. -/
def PoolWF (p : BytesPool) : Prop := ∀ b ∈ p.pool, b.length = p.size

/-- Wire-layout well-formedness of an `ICMPv6` value: each field fits its Go
type's width (`uint8`, `uint8`, `uint16`, `[]byte`). -/
def ICMPv6.wf (m : ICMPv6) : Prop :=
  m.typ < 256 ∧ m.code < 256 ∧ m.checksum < 65536 ∧ ∀ b ∈ m.messageBody, b < 256

/-- Wire-layout well-formedness of a `BGP` value: a 16-byte marker and fields
that fit their Go types (`uint16` length, `uint8` type, byte slices). -/
def BGP.wf (b : BGP) : Prop :=
  b.marker.length = 16 ∧ (∀ x ∈ b.marker, x < 256) ∧ b.length < 65536 ∧
    b.typ < 256 ∧ ∀ x ∈ b.messageBody, x < 256

/-- Wire-layout well-formedness of an `OSPF` value: an 8-byte authentication
block and fields that fit their Go types. -/
def OSPF.wf (o : OSPF) : Prop :=
  o.version < 256 ∧ o.typ < 256 ∧ o.packetLength < 65536 ∧
    o.routerID < 4294967296 ∧ o.areaID < 4294967296 ∧ o.checksum < 65536 ∧
    o.auType < 65536 ∧ o.authentication.length = 8 ∧
    (∀ x ∈ o.authentication, x < 256) ∧ ∀ x ∈ o.messageBody, x < 256

/-- On arguments already within 16 bits the folding loop is the identity. -/
theorem foldCarry_of_le {s : Nat} (h : s ≤ 65535) : foldCarry s = s := by
  rw [foldCarry]
  simp [Nat.not_lt.mpr h]

/-- One iteration of the folding loop. -/
theorem foldCarry_step {s : Nat} (h : 65535 < s) :
    foldCarry s = foldCarry (s % 65536 + s / 65536) := by
  rw [foldCarry]
  simp [h]

/-- Folding carries preserves the value modulo 65535, because `2^16 ≡ 1`. -/
theorem foldCarry_mod (s : Nat) : foldCarry s % 65535 = s % 65535 := by
  induction s using Nat.strong_induction_on with
  | _ s ih =>
    by_cases h : 65535 < s
    · rw [foldCarry_step h, ih _ (by omega)]
      omega
    · rw [foldCarry_of_le (by omega)]

/-- The folding loop terminates with a 16-bit value. -/
theorem foldCarry_le (s : Nat) : foldCarry s ≤ 65535 := by
  induction s using Nat.strong_induction_on with
  | _ s ih =>
    by_cases h : 65535 < s
    · rw [foldCarry_step h]; exact ih _ (by omega)
    · rw [foldCarry_of_le (by omega)]; omega

/-- Folding a positive value stays positive. -/
theorem foldCarry_pos {s : Nat} (h : 0 < s) : 0 < foldCarry s := by
  induction s using Nat.strong_induction_on with
  | _ s ih =>
    by_cases h2 : 65535 < s
    · rw [foldCarry_step h2]; exact ih _ (by omega) (by omega)
    · rw [foldCarry_of_le (by omega)]; omega

/-- Folding never increases the value. -/
theorem foldCarry_le_self (s : Nat) : foldCarry s ≤ s := by
  induction s using Nat.strong_induction_on with
  | _ s ih =>
    by_cases h : 65535 < s
    · rw [foldCarry_step h]
      exact le_trans (ih _ (by omega)) (by omega)
    · rw [foldCarry_of_le (by omega)]

/-- A positive multiple of 65535 folds to exactly 65535. -/
theorem foldCarry_full {s : Nat} (h : 0 < s) (h2 : s % 65535 = 0) :
    foldCarry s = 65535 := by
  have m := foldCarry_mod s
  have l := foldCarry_le s
  have p := foldCarry_pos h
  omega

/-- The word sum splits across an even-length prefix. -/
theorem sum16_append :
    ∀ pre rest : List Nat, pre.length % 2 = 0 →
      sum16 (pre ++ rest) = sum16 pre + sum16 rest
  | [], rest, _ => by simp [sum16]
  | [a], rest, h => by simp at h
  | a :: b :: t, rest, h => by
    have ih := sum16_append t rest (by simp at h; omega)
    have ih2 : sum16 (t.append rest) = sum16 t + sum16 rest := ih
    simp only [List.cons_append, sum16]
    omega

/-- Bound on the word sum of a byte list. -/
theorem sum16_le : ∀ l : List Nat, (∀ b ∈ l, b < 256) → sum16 l ≤ 65535 * l.length
  | [], _ => by simp [sum16]
  | [a], h => by
    have := h a (by simp)
    simp [sum16]
    omega
  | a :: b :: t, h => by
    have ha := h a (by simp)
    have hb := h b (by simp)
    have ih := sum16_le t (fun x hx => h x (by simp [hx]))
    simp only [sum16, List.length_cons]
    omega

/-- C1: `calculateFletcherChecksum` does not apply the general RFC 1008
algorithm uniformly: on the 16-byte RFC 1008 test vector
`00 01 02 … 0B 00 00 0E 0F` it returns the hardcoded constant `0xABF5`,
while the general algorithm — the routine's own mod-255 loop with the
checksum bytes 12–13 skipped, combined as `(c1 << 8) | c0` — yields
`0xCE5F` on that vector. -/
theorem fletcher_hardcoded_rfc1008_vector :
    calculateFletcherChecksum [0, 1, 2, 3, 4, 5, 6, 7, 8, 9, 10, 11, 0, 0, 14, 15] = 43989 ∧
    fletcherGeneral [0, 1, 2, 3, 4, 5, 6, 7, 8, 9, 10, 11, 0, 0, 14, 15] = 52831 ∧
    calculateFletcherChecksum [0, 1, 2, 3, 4, 5, 6, 7, 8, 9, 10, 11, 0, 0, 14, 15] ≠
      fletcherGeneral [0, 1, 2, 3, 4, 5, 6, 7, 8, 9, 10, 11, 0, 0, 14, 15] := by
  decide

/-- C2 counterexample: the 4-byte sequence `00 00 00 00` with its checksum
field at bytes 2–3.  The checksum computed over the zeroed sequence is
`0xFFFF`, whose big-endian bytes are `FF FF`; re-running
`calculateInternetChecksum` over the sequence containing that real checksum
yields `0x0000`, not `0xFFFF` as claimed. -/
theorem internet_checksum_verify_counterexample :
    calculateInternetChecksum [0, 0, 0, 0] = 65535 ∧
    enc16 (calculateInternetChecksum [0, 0, 0, 0]) = [255, 255] ∧
    calculateInternetChecksum [0, 0, 255, 255] = 0 ∧
    calculateInternetChecksum [0, 0, 255, 255] ≠ 65535 := by
  have h0 : calculateInternetChecksum [0, 0, 0, 0] = 65535 := by
    unfold calculateInternetChecksum
    norm_num [sum16, foldCarry_of_le]
  have h1 : calculateInternetChecksum [0, 0, 255, 255] = 0 := by
    unfold calculateInternetChecksum
    norm_num [sum16]
    rw [foldCarry_of_le (by norm_num)]
  refine ⟨h0, ?_, h1, by omega⟩
  rw [h0]
  decide

/-- C2 (amended): for every byte sequence whose 16-bit checksum field sits at
an even offset and holds the value `calculateInternetChecksum` produced over
the same bytes with the field zeroed, applying `calculateInternetChecksum` to
the full sequence yields `0x0000` (not `0xFFFF`), provided the sequence is at
most 65535 bytes long so that the 32-bit accumulator cannot wrap. -/
theorem internet_checksum_verify_zero (pre post : List Nat)
    (hpre : pre.length % 2 = 0)
    (hbytes : ∀ b ∈ pre ++ post, b < 256)
    (hlen : pre.length + 2 + post.length ≤ 65535) :
    calculateInternetChecksum
      (pre ++ enc16 (calculateInternetChecksum (pre ++ [0, 0] ++ post)) ++ post) = 0 := by
  have hpreB : ∀ b ∈ pre, b < 256 := fun b hb => hbytes b (by simp [hb])
  have hpostB : ∀ b ∈ post, b < 256 := fun b hb => hbytes b (by simp [hb])
  -- the word sum of the zeroed sequence
  have hS : sum16 (pre ++ [0, 0] ++ post) = sum16 pre + sum16 post := by
    rw [List.append_assoc, sum16_append pre _ hpre,
      sum16_append [0, 0] post (by simp)]
    simp [sum16]
  set S := sum16 pre + sum16 post with hSdef
  have hSbound : S ≤ 65535 * pre.length + 65535 * post.length := by
    have := sum16_le pre hpreB
    have := sum16_le post hpostB
    omega
  have hSlt : S < 4294967296 := by nlinarith
  have hc : calculateInternetChecksum (pre ++ [0, 0] ++ post) =
      65535 - foldCarry S := by
    rw [calculateInternetChecksum, hS, Nat.mod_eq_of_lt hSlt]
  set c := 65535 - foldCarry S with hcdef
  have hfle : foldCarry S ≤ 65535 := foldCarry_le S
  have hfself : foldCarry S ≤ S := foldCarry_le_self S
  have hcle : c ≤ 65535 := by omega
  -- the word sum of the sequence with the checksum spliced in
  have hT : sum16 (pre ++ enc16 c ++ post) = S + c := by
    rw [List.append_assoc, sum16_append pre _ hpre,
      sum16_append (enc16 c) post (by simp [enc16])]
    have : sum16 (enc16 c) = c := by
      simp [enc16, sum16]
      omega
    rw [this]
    omega
  have hTlt : S + c < 4294967296 := by omega
  have hmod := foldCarry_mod S
  have hTmod : (S + c) % 65535 = 0 := by omega
  have hTpos : 0 < S + c := by omega
  rw [calculateInternetChecksum, hc, hT, Nat.mod_eq_of_lt hTlt,
    foldCarry_full hTpos hTmod]

/-- C2 witness: the amended theorem applied to the empty sequence around the
checksum field (`pre = post = []`). -/
theorem internet_checksum_verify_zero_witness :
    calculateInternetChecksum
      (([] : List Nat) ++ enc16 (calculateInternetChecksum ([] ++ [0, 0] ++ [])) ++ []) = 0 :=
  internet_checksum_verify_zero [] [] (by decide) (by decide) (by decide)

/-- C4 counterexample: a BGP OPEN whose body is exactly 10 bytes but declares
5 bytes of optional parameters (`MessageBody[9] = 5`, exceeding the 0
remaining bytes).  `ParsedBGPOpen` does not return absent: it returns a
struct with the overrunning parameters section dropped (empty). -/
theorem ParsedBGPOpen_overrun_counterexample :
    (10 : Nat) < 10 + 5 ∧
    ParsedBGPOpen
        (some { marker := List.replicate 16 255, length := 29, typ := 1,
                messageBody := [4, 253, 232, 0, 90, 1, 2, 3, 4, 5] }) =
      some { version := 4, myAutonomousSystem := 65000, holdTime := 90,
             bgpIdentifier := 16909060, optionalParametersLength := 5,
             optionalParameters := [] } := by
  decide

/-- C4 (amended): for every BGP message of type OPEN (1) with a body of at
least 10 bytes whose declared optional-parameters length exceeds the bytes
remaining after the fixed fields, `ParsedBGPOpen` returns a present struct
whose fixed fields are parsed, whose `optionalParametersLength` is the
declared value, and whose `optionalParameters` is empty — the overrunning
section is dropped, not reported as absent. -/
theorem ParsedBGPOpen_overrun_drops_params (b : BGP)
    (htyp : b.typ = 1) (hlen : 10 ≤ b.messageBody.length)
    (hover : b.messageBody.length < 10 + b.messageBody.getD 9 0) :
    ParsedBGPOpen (some b) =
      some { version := b.messageBody.getD 0 0,
             myAutonomousSystem := readU16 b.messageBody 1,
             holdTime := readU16 b.messageBody 3,
             bgpIdentifier := readU32 b.messageBody 5,
             optionalParametersLength := b.messageBody.getD 9 0,
             optionalParameters := [] } := by
  simp only [ParsedBGPOpen, htyp]
  rw [if_neg (by omega), if_neg (by omega)]

/-- C4 witness: the amended theorem applied to a concrete OPEN whose 11-byte
body declares 200 bytes of optional parameters. -/
theorem ParsedBGPOpen_overrun_drops_params_witness :
    ParsedBGPOpen
        (some { marker := List.replicate 16 255, length := 30, typ := 1,
                messageBody := [4, 0, 100, 0, 90, 10, 0, 0, 1, 200, 7] }) =
      some { version := 4, myAutonomousSystem := 100, holdTime := 90,
             bgpIdentifier := 167772161, optionalParametersLength := 200,
             optionalParameters := [] } := by
  rw [ParsedBGPOpen_overrun_drops_params _ rfl (by decide) (by decide)]
  decide

/-- C5 counterexample: an ICMPv6 message of the non-Echo type 1 (Destination
Unreachable) with a 4-byte body.  The claim says `ParsedICMPv6Echo` returns
absent for any non-Echo type, but the code returns a present sub-header. -/
theorem ParsedICMPv6Echo_non_echo_counterexample :
    (1 : Nat) ≠ 128 ∧ (1 : Nat) ≠ 129 ∧
    ParsedICMPv6Echo
        (some { typ := 1, code := 0, checksum := 0,
                messageBody := [0, 0, 0, 0] }) =
      some { identifier := 0, sequenceNumber := 0, data := [] } := by
  decide

/-- C5 (amended): `ParsedICMPv6Echo` returns a present identifier+sequence
sub-header exactly when the input message is present and its body is at least
4 bytes; the message's type is not consulted at all, so non-Echo types with a
big-enough body also yield a present result. -/
theorem ParsedICMPv6Echo_presence (o : Option ICMPv6) :
    (ParsedICMPv6Echo o).isSome = true ↔
      ∃ m, o = some m ∧ 4 ≤ m.messageBody.length := by
  cases o with
  | none => simp [ParsedICMPv6Echo]
  | some m =>
    simp only [ParsedICMPv6Echo]
    by_cases h : m.messageBody.length < 4
    · simp [h]; try omega
    · simp [h]; try omega

/-- C7: for every BGP message of type UPDATE (2) whose declared
withdrawn-routes length exceeds the bytes remaining in the message body
after the 2-byte length field, `ParsedBGPUpdate` returns absent. -/
theorem ParsedBGPUpdate_withdrawn_overrun_none (b : BGP)
    (htyp : b.typ = 2)
    (hover : b.messageBody.length < 2 + readU16 b.messageBody 0) :
    ParsedBGPUpdate (some b) = none := by
  simp only [ParsedBGPUpdate, htyp]
  by_cases h4 : b.messageBody.length < 4
  · rw [if_pos (by omega)]
  · rw [if_neg (by omega), if_pos (by omega)]

/-- C7 witness: a concrete UPDATE whose 4-byte body declares 10 bytes of
withdrawn routes. -/
theorem ParsedBGPUpdate_withdrawn_overrun_none_witness :
    ParsedBGPUpdate
        (some { marker := List.replicate 16 255, length := 23, typ := 2,
                messageBody := [0, 10, 0, 0] }) = none :=
  ParsedBGPUpdate_withdrawn_overrun_none _ rfl (by decide)

/-- Every slice handed out by a single `Get` is all zero, whatever the pool
held. -/
theorem BytesPool_Get_all_zero (p : BytesPool) : ∀ x ∈ (p.Get).2, x = 0 := by
  rcases hp : p.pool with _ | ⟨b, rest⟩
  · simp only [BytesPool.Get, hp]
    intro x hx
    exact List.eq_of_mem_replicate hx
  · simp [BytesPool.Get, hp, List.mem_map]

/-- C9: for every initial pool state and every sequence of acquire and
release operations, every slice returned by an acquire (`BytesPool.Get`) has
all of its bytes equal to zero, regardless of the contents of any slice
previously released into the pool. -/
theorem runPool_acquired_all_zero (p : BytesPool) (ops : List PoolOp)
    (buf : List Nat) (hbuf : buf ∈ runPool p ops) : ∀ x ∈ buf, x = 0 := by
  induction ops generalizing p with
  | nil => simp [runPool] at hbuf
  | cons op ops ih =>
    cases op with
    | get =>
      simp only [runPool, List.mem_cons] at hbuf
      rcases hbuf with h | h
      · subst h
        exact BytesPool_Get_all_zero p
      · exact ih _ h
    | put b =>
      exact ih _ hbuf

/-- C9 witness: release the dirty slice `[5, 6, 7]` into a size-3 pool, then
acquire; the acquired slice is that pooled slice, zero-filled. -/
theorem runPool_acquired_all_zero_witness :
    [0, 0, 0] ∈ runPool { size := 3, pool := [] } [PoolOp.put [5, 6, 7], PoolOp.get] ∧
    ∀ x ∈ ([0, 0, 0] : List Nat), x = 0 :=
  ⟨by decide,
   runPool_acquired_all_zero { size := 3, pool := [] }
     [PoolOp.put [5, 6, 7], PoolOp.get] [0, 0, 0] (by decide)⟩

/-- With a well-formed pool, `Get` hands out a slice of exactly the class
size. -/
theorem BytesPool_Get_length (p : BytesPool) (wf : PoolWF p) :
    (p.Get).2.length = p.size := by
  rcases hp : p.pool with _ | ⟨b, rest⟩
  · simp [BytesPool.Get, hp]
  · have := wf b (by simp [hp])
    simp [BytesPool.Get, hp, this]

/-- C10 counterexample: for requested size 9001, no size class has a
threshold that large, yet `GetBytes` falls back to the large pool and returns
a 9000-byte slice — shorter than the requested size, so the returned length
is not always at least `n`. -/
theorem GetBytes_oversize_counterexample :
    (GetBytes (NewBytesPool SmallPacketSize) (NewBytesPool MediumPacketSize)
        (NewBytesPool LargePacketSize) 9001).length = 9000 ∧
    ¬ 9001 ≤ (GetBytes (NewBytesPool SmallPacketSize) (NewBytesPool MediumPacketSize)
        (NewBytesPool LargePacketSize) 9001).length := by
  have he : GetBytes (NewBytesPool SmallPacketSize) (NewBytesPool MediumPacketSize)
      (NewBytesPool LargePacketSize) 9001 = List.replicate 9000 0 := rfl
  have h : (GetBytes (NewBytesPool SmallPacketSize) (NewBytesPool MediumPacketSize)
      (NewBytesPool LargePacketSize) 9001).length = 9000 := by
    rw [he, List.length_replicate]
  exact ⟨h, by omega⟩

/-- C10 (amended): for every requested size `n` that fits some size class
(`n ≤ 9000`), `GetBytes` returns a slice drawn from the smallest class whose
threshold is at least `n` — its length is one of 128, 1500, 9000, is at least
`n`, and is at most every class threshold that is at least `n`.  (For
`n > 9000` the code falls back to the 9000-byte class and the returned slice
is shorter than `n`.) -/
theorem GetBytes_smallest_class (small medium large : BytesPool) (n : Nat)
    (hs : small.size = SmallPacketSize) (hm : medium.size = MediumPacketSize)
    (hl : large.size = LargePacketSize) (ws : PoolWF small) (wm : PoolWF medium)
    (wl : PoolWF large) (hn : n ≤ LargePacketSize) :
    n ≤ (GetBytes small medium large n).length ∧
    (GetBytes small medium large n).length ∈
      [SmallPacketSize, MediumPacketSize, LargePacketSize] ∧
    ∀ c ∈ [SmallPacketSize, MediumPacketSize, LargePacketSize],
      n ≤ c → (GetBytes small medium large n).length ≤ c := by
  have lens : (small.Get).2.length = SmallPacketSize ∧
      (medium.Get).2.length = MediumPacketSize ∧
      (large.Get).2.length = LargePacketSize := by
    rw [BytesPool_Get_length small ws, BytesPool_Get_length medium wm,
      BytesPool_Get_length large wl, hs, hm, hl]
    exact ⟨rfl, rfl, rfl⟩
  obtain ⟨ls, lm, ll⟩ := lens
  simp only [SmallPacketSize, MediumPacketSize, LargePacketSize] at ls lm ll hn ⊢
  unfold GetBytes SmallPacketSize MediumPacketSize
  split_ifs with h1 h2 <;>
    simp only [ls, lm, ll, List.mem_cons, List.not_mem_nil] <;>
    refine ⟨by omega, by simp, ?_⟩ <;>
    intro c hc hnc <;> simp at hc <;> rcases hc with rfl | rfl | rfl <;> omega

/-- C10 witness: the amended theorem applied to the empty global pools and a
requested size of 1000, which selects the 1500-byte class. -/
theorem GetBytes_smallest_class_witness :
    1000 ≤ (GetBytes (NewBytesPool 128) (NewBytesPool 1500) (NewBytesPool 9000)
        1000).length ∧
    (GetBytes (NewBytesPool 128) (NewBytesPool 1500) (NewBytesPool 9000)
        1000).length ∈ [SmallPacketSize, MediumPacketSize, LargePacketSize] ∧
    ∀ c ∈ [SmallPacketSize, MediumPacketSize, LargePacketSize],
      1000 ≤ c → (GetBytes (NewBytesPool 128) (NewBytesPool 1500)
        (NewBytesPool 9000) 1000).length ≤ c :=
  GetBytes_smallest_class (NewBytesPool 128) (NewBytesPool 1500) (NewBytesPool 9000)
    1000 rfl rfl rfl (by intro b hb; simp [NewBytesPool] at hb)
    (by intro b hb; simp [NewBytesPool] at hb)
    (by intro b hb; simp [NewBytesPool] at hb) (by decide)

/-- ICMPv6 round trip: parsing the serialization of a well-formed instance
recovers the instance. -/
theorem roundtrip_ICMPv6 (m : ICMPv6) (h : m.wf) : ParsedICMPv6 m.Bytes = some m := by
  obtain ⟨ht, hc, hk, hb⟩ := h
  cases m with
  | mk t c k body =>
    have hk2 : k < 65536 := hk
    simp only [ICMPv6.Bytes, enc16, ParsedICMPv6, readU16, List.cons_append,
      List.nil_append]
    simp only [List.length_cons, List.getD_cons_zero, List.getD_cons_succ,
      List.drop_succ_cons, List.drop_zero]
    rw [if_neg (by omega)]
    have harith : k / 256 % 256 * 256 + k % 256 = k := by omega
    simp [harith]

/-- BGP round trip: parsing the serialization of a well-formed instance
recovers the instance. -/
theorem roundtrip_BGP (b : BGP) (h : b.wf) : ParsedBGP b.Bytes = some b := by
  obtain ⟨hm, hmB, hl, ht, hb⟩ := h
  cases b with
  | mk marker len typ body =>
    have hm2 : marker.length = 16 := hm
    have hl2 : len < 65536 := hl
    have hB : BGP.Bytes { marker := marker, length := len, typ := typ,
                          messageBody := body } =
        marker ++ (len / 256 % 256 :: len % 256 :: typ :: body) := by
      simp [BGP.Bytes, enc16]
    rw [ParsedBGP, hB]
    have hlen : (marker ++ (len / 256 % 256 :: len % 256 :: typ :: body)).length =
        19 + body.length := by
      simp [hm2]
      omega
    rw [if_neg (by omega)]
    have e16 : (marker ++ (len / 256 % 256 :: len % 256 :: typ :: body)).getD 16 0 =
        len / 256 % 256 := by
      rw [List.getD_append_right _ _ _ _ (by omega), hm2]
      rfl
    have e17 : (marker ++ (len / 256 % 256 :: len % 256 :: typ :: body)).getD 17 0 =
        len % 256 := by
      rw [List.getD_append_right _ _ _ _ (by omega), hm2]
      rfl
    have e18 : (marker ++ (len / 256 % 256 :: len % 256 :: typ :: body)).getD 18 0 =
        typ := by
      rw [List.getD_append_right _ _ _ _ (by omega), hm2]
      rfl
    have etake : (marker ++ (len / 256 % 256 :: len % 256 :: typ :: body)).take 16 =
        marker := List.take_left' hm2
    have edrop : (marker ++ (len / 256 % 256 :: len % 256 :: typ :: body)).drop 19 =
        body := by
      have h19 : (19 : Nat) = marker.length + 3 := by omega
      rw [h19, List.drop_append]
      rfl
    rw [readU16, e16, e17, e18, etake, edrop]
    simp only [Option.some.injEq, BGP.mk.injEq]
    refine ⟨?_, ?_, ?_, ?_⟩ <;> first | trivial | omega

/-- OSPF round trip: parsing the serialization of a well-formed instance
recovers the instance. -/
theorem roundtrip_OSPF (o : OSPF) (h : o.wf) : ParsedOSPF o.Bytes = some o := by
  obtain ⟨hv, ht, hp, hr, ha, hc, hat, hau, hauB, hbB⟩ := h
  cases o with
  | mk v t pl rid aid ck aty auth body =>
    have hp2 : pl < 65536 := hp
    have hr2 : rid < 4294967296 := hr
    have ha2 : aid < 4294967296 := ha
    have hc2 : ck < 65536 := hc
    have hat2 : aty < 65536 := hat
    have hau2 : auth.length = 8 := hau
    simp only [OSPF.Bytes, ParsedOSPF, enc16, enc32, readU16, readU32,
      List.cons_append, List.nil_append, List.append_assoc]
    simp only [List.length_cons, List.length_append, hau2]
    rw [if_neg (by omega)]
    simp only [List.getD_cons_zero, List.getD_cons_succ, List.drop_succ_cons,
      List.drop_zero]
    rw [List.take_left' hau2,
      show (auth ++ body).drop 8 = body from by rw [← hau2, List.drop_left]]
    simp only [Option.some.injEq, OSPF.mk.injEq]
    refine ⟨?_, ?_, ?_, ?_, ?_, ?_, ?_, ?_, ?_⟩ <;> first | trivial | omega

/-- C3: for every well-formed codec instance — fields within their declared
widths, a 16-byte BGP marker, an 8-byte OSPF authentication block — parsing
the instance's serialization returns a present instance equal to the
original in every header field and every payload byte, for each of the
ICMPv6, BGP and OSPF codecs. -/
theorem codec_roundtrip :
    (∀ m : ICMPv6, m.wf → ParsedICMPv6 m.Bytes = some m) ∧
    (∀ b : BGP, b.wf → ParsedBGP b.Bytes = some b) ∧
    (∀ o : OSPF, o.wf → ParsedOSPF o.Bytes = some o) :=
  ⟨roundtrip_ICMPv6, roundtrip_BGP, roundtrip_OSPF⟩

/-- C3 witness: the round-trip theorem applied to one concrete instance of
each codec. -/
theorem codec_roundtrip_witness :
    ParsedICMPv6 (ICMPv6.Bytes { typ := 128, code := 0, checksum := 4660,
                                 messageBody := [170, 187] }) =
      some { typ := 128, code := 0, checksum := 4660, messageBody := [170, 187] } ∧
    ParsedBGP (BGP.Bytes { marker := List.replicate 16 255, length := 19,
                           typ := 4, messageBody := [] }) =
      some { marker := List.replicate 16 255, length := 19, typ := 4,
             messageBody := [] } ∧
    ParsedOSPF (OSPF.Bytes { version := 2, typ := 1, packetLength := 25,
                             routerID := 1, areaID := 0, checksum := 7,
                             auType := 0, authentication := List.replicate 8 0,
                             messageBody := [9] }) =
      some { version := 2, typ := 1, packetLength := 25, routerID := 1,
             areaID := 0, checksum := 7, auType := 0,
             authentication := List.replicate 8 0, messageBody := [9] } :=
  ⟨codec_roundtrip.1 _ (by unfold ICMPv6.wf; decide),
   codec_roundtrip.2.1 _ (by unfold BGP.wf; decide),
   codec_roundtrip.2.2 _ (by unfold OSPF.wf; decide)⟩

/-- C6 counterexample: an Ethernet frame carrying an IPv6 packet with
next-header 58 whose IPv6 payload is exactly 4 bytes — ICMPv6's minimum
header size, on which `ParseICMPv6Packet` itself succeeds.  The claim says
the demultiplexer attempts the ICMPv6 parse and populates the field, but the
code's guard requires 8 bytes, so the field is left absent. -/
theorem demux_icmpv6_min_counterexample :
    parseEthernetPayloadICMPv6Field
        { dstAddr := List.replicate 6 0, srcAddr := List.replicate 6 0,
          typ := 34525,
          payload := [96, 0, 0, 0, 0, 4, 58, 64] ++ List.replicate 32 0 ++
            [128, 0, 0, 0] } = none ∧
    4 ≤ (([96, 0, 0, 0, 0, 4, 58, 64] ++ List.replicate 32 0 ++
      [128, 0, 0, 0]).drop 40).length ∧
    (ParseICMPv6Packet (([96, 0, 0, 0, 0, 4, 58, 64] ++ List.replicate 32 0 ++
      [128, 0, 0, 0]).drop 40)).isSome = true := by
  decide

/-- C6 (amended): for every captured Ethernet frame of EtherType 0x86DD with
at least the 40-byte IPv6 header whose next-header byte is 58, the
demultiplexer populates the composite record's ICMPv6 field with
`ParseICMPv6Packet` of the IPv6 payload exactly when that payload is at
least 8 bytes; payloads below 8 bytes — including those of 4 to 7 bytes,
which meet ICMPv6's own 4-byte minimum — are silently skipped. -/
theorem demux_icmpv6_threshold (f : EthernetFrame)
    (htyp : f.typ = 34525) (hlen : 40 ≤ f.payload.length)
    (hnh : f.payload.getD 6 0 = 58) :
    (8 ≤ (f.payload.drop 40).length →
      parseEthernetPayloadICMPv6Field f = ParseICMPv6Packet (f.payload.drop 40)) ∧
    ((f.payload.drop 40).length < 8 →
      parseEthernetPayloadICMPv6Field f = none) := by
  have hdl : (f.payload.drop 40).length = f.payload.length - 40 :=
    List.length_drop 40 f.payload
  have hfp : ¬ f.payload.length = 0 := by omega
  have hipv6 : ParseIPv6Packet f.payload =
      some { version := f.payload.getD 0 0 / 16 % 16,
             trafficClass := f.payload.getD 0 0 % 16 * 16 +
               f.payload.getD 1 0 / 16 % 16,
             flowLabel := f.payload.getD 1 0 % 16 * 65536 +
               f.payload.getD 2 0 * 256 + f.payload.getD 3 0,
             payloadLen := readU16 f.payload 4,
             nextHeader := f.payload.getD 6 0,
             hopLimit := f.payload.getD 7 0,
             srcIP := (f.payload.drop 8).take 16,
             dstIP := (f.payload.drop 24).take 16,
             payload := f.payload.drop 40 } := by
    rw [ParseIPv6Packet, if_neg (by omega)]
  simp only [parseEthernetPayloadICMPv6Field, htyp, hfp, if_false, if_true,
    if_neg hfp, if_pos rfl, hipv6]
  rw [if_pos hlen]
  simp only [parseIPv6PayloadICMPv6Field, hnh, eq_self_iff_true, if_true]
  refine ⟨fun h8 => ?_, fun h8 => ?_⟩
  · rw [if_pos (by omega), if_pos h8]
  · by_cases h0 : 0 < (f.payload.drop 40).length
    · rw [if_pos h0, if_neg (by omega)]
    · rw [if_neg h0]

/-- C6 witness: the amended theorem applied to a frame with an 8-byte ICMPv6
payload, where the demultiplexer does populate the field. -/
theorem demux_icmpv6_threshold_witness :
    parseEthernetPayloadICMPv6Field
        { dstAddr := List.replicate 6 0, srcAddr := List.replicate 6 0,
          typ := 34525,
          payload := [96, 0, 0, 0, 0, 8, 58, 64] ++ List.replicate 32 0 ++
            [128, 0, 0, 0, 1, 2, 3, 4] } =
      ParseICMPv6Packet (([96, 0, 0, 0, 0, 8, 58, 64] ++ List.replicate 32 0 ++
        [128, 0, 0, 0, 1, 2, 3, 4]).drop 40) :=
  (demux_icmpv6_threshold
    { dstAddr := List.replicate 6 0, srcAddr := List.replicate 6 0,
      typ := 34525,
      payload := [96, 0, 0, 0, 0, 8, 58, 64] ++ List.replicate 32 0 ++
        [128, 0, 0, 0, 1, 2, 3, 4] }
    rfl (by decide) (by decide)).1 (by decide)

/-- C8: serializing the OSPF Hello packet built by `NewOSPFHello` with
RouterID 192.168.1.1 (= 3232235777), AreaID 0, NetworkMask 255.255.255.0
(= 4294967040), HelloInterval 10 and neighbor list [192.168.1.2
(= 3232235778)] (remaining parameters zero), then parsing it with
`ParsedOSPF` followed by `ParsedOSPFHello`, recovers the neighbor list
`[3232235778]`: length 1, single entry 192.168.1.2. -/
theorem NewOSPFHello_roundtrip_example :
    Option.map OSPFHello.neighbors (ParsedOSPFHello (ParsedOSPF
      ((NewOSPFHello 3232235777 0 4294967040 10 0 0 0 0 0 [3232235778]).Bytes))) =
      some [3232235778] := by
  decide

end Packemon
